import Mathlib

/-!
Shallow embedding of the Turbopack Node.js runtime
(`turbopack-ecmascript-runtime/js/src/nodejs/runtime.ts`).

The runtime's mutable global state (factory registry, module cache,
loaded-chunk set, chunk cache) is modelled as an explicit `RState` record
threaded through every operation.  JavaScript reference identity is
modelled by allocation indices: every module record carries a `ref`
(allocation id of the record object) and an `exportsRef` (index into an
explicit heap of exports objects), so "same object reference" becomes
equality of those indices.  Exceptions are modelled with `Except Err`.
Module factories (produced by the compiler, opaque to the runtime) are
modelled as small programs of `FAction`s interpreted by `runFactoryWith`;
the interpreter additionally keeps instrumentation logs (`callLog`,
`chunkLoadLog`, `requireTrace`) that record which factories were invoked,
which chunks were required from disk, and which exports references a
factory observed — the observations the spec's testable properties count.
-/

namespace Turbopack

/-- Module ids are opaque strings (`type ModuleId` in the runtime). -/
abbrev ModuleId := String

/-- Chunk paths are opaque strings (`type ChunkPath`). -/
abbrev ChunkPath := String

/-- A module factory reference: JavaScript function identity is modelled by
an allocation index into the environment's code table. -/
abbrev FactoryRef := Nat

/-- An exports object: a mutable string-keyed map of values, modelled as an
association list living in the state's heap.  Values are bare naturals —
their structure is irrelevant to the runtime. -/
abbrev ExportsObj := List (String × Nat)

/-- Errors/exceptions.  `error msg` models `new Error(msg)`, `errorCause`
models `new Error(msg, \x7b cause \x7d)`, `user c` models an arbitrary value
thrown by a module factory, and `fuel` is the out-of-fuel marker of the
fuelled interpreter (never produced by any run with enough fuel). -/
inductive Err where
  | user (code : Nat)
  | error (msg : String)
  | errorCause (msg : String) (cause : Err)
  | fuel
deriving DecidableEq, Repr

instance {ε α : Type} [DecidableEq ε] [DecidableEq α] : DecidableEq (Except ε α) := fun a b =>
  match a, b with
  | Except.ok a1, Except.ok a2 =>
    if h : a1 = a2 then isTrue (by rw [h])
    else isFalse (fun hh => h (Except.ok.inj hh))
  | Except.error e1, Except.error e2 =>
    if h : e1 = e2 then isTrue (by rw [h])
    else isFalse (fun hh => h (Except.error.inj hh))
  | Except.ok _, Except.error _ => isFalse (fun hh => Except.noConfusion hh)
  | Except.error _, Except.ok _ => isFalse (fun hh => Except.noConfusion hh)

/-- `SourceInfo`: why a module is being instantiated (runtime.ts lines 20-28). -/
inductive SourceInfo where
  | runtime (chunkPath : ChunkPath)
  | parent (parentId : ModuleId)
deriving DecidableEq, Repr

/-- `stringifySourceInfo` (runtime.ts lines 32-41). -/
def stringifySourceInfo : SourceInfo → String
  | SourceInfo.runtime chunkPath => "runtime for chunk " ++ chunkPath
  | SourceInfo.parent parentId => "parent module " ++ parentId

/-- A module record (`Module` in shared runtime types): `ref` is the
allocation id of the record object itself; `exportsRef` is the heap index of
its exports object (`module.exports`); `namespaceObject`, when set, is the
heap index of the ESM namespace object. -/
structure Module where
  ref : Nat
  id : ModuleId
  exportsRef : Nat
  error : Option Err
  loaded : Bool
  namespaceObject : Option Nat
deriving DecidableEq, Repr

/-- Actions a module factory may perform: synchronous requires of other ids
(the `r` binder of the factory context), writes to its own exports object,
and throwing. -/
inductive FAction where
  | require (target : ModuleId)
  | setExport (key : String) (value : Nat)
  | throwErr (code : Nat)
deriving DecidableEq, Repr

/-- A factory body is a sequence of actions. -/
abbrev FactoryProg := List FAction

/-- An entry of a chunk's module table (`CompressedModuleFactories`): either
a bare factory or a `[factory, otherIds]` pair sharing one factory body
across several aliasing ids. -/
inductive CompressedEntry where
  | plain (f : FactoryRef)
  | compressed (f : FactoryRef) (otherIds : List ModuleId)
deriving DecidableEq, Repr

/-- The exported table of a chunk file: module id to factory entry. -/
abbrev ChunkTable := List (ModuleId × CompressedEntry)

/-- The external world: which chunk files exist (what `require(resolved)`
would return for each chunk path) and the code bodies behind factory
references. -/
structure Env where
  chunks : List (ChunkPath × ChunkTable)
  code : List (FactoryRef × FactoryProg)
deriving DecidableEq, Repr

/-- An observation made by a factory when it required another module: which
exports reference it obtained, and whether the required module was already
`loaded` at that moment. -/
structure ReqObs where
  requirer : ModuleId
  required : ModuleId
  exportsRef : Nat
  loadedAtObservation : Bool
deriving DecidableEq, Repr

/-- The runtime's process-wide mutable state, plus instrumentation logs.
`moduleFactories`, `moduleCache`, `loadedChunks`, `chunkCache` are the four
global containers of runtime.ts (lines 64-65, 95, 98).  `heap` holds the
exports objects, `nextModuleRef` is the allocator for module record
identity.  `callLog` records each module id whose factory was invoked,
`chunkLoadLog` each chunk path for which the underlying `require` loader
was invoked, `requireTrace` each require observation. -/
structure RState where
  moduleFactories : List (ModuleId × FactoryRef)
  moduleCache : List (ModuleId × Module)
  loadedChunks : List ChunkPath
  chunkCache : List (ChunkPath × Except Err Unit)
  heap : List ExportsObj
  nextModuleRef : Nat
  callLog : List ModuleId
  chunkLoadLog : List ChunkPath
  requireTrace : List ReqObs
deriving DecidableEq, Repr

/-- The empty initial state (all registries start empty at process start). -/
def initState : RState :=
  { moduleFactories := []
    moduleCache := []
    loadedChunks := []
    chunkCache := []
    heap := []
    nextModuleRef := 0
    callLog := []
    chunkLoadLog := []
    requireTrace := [] }

/-- Lookup in an association list (models JavaScript object property read). -/
def assocFind {α β : Type} [DecidableEq α] : List (α × β) → α → Option β
  | [], _ => none
  | (k, v) :: rest, x => if x = k then some v else assocFind rest x

/-- Insertion/overwrite in an association list (models JavaScript object
property write). -/
def assocSet {α β : Type} [DecidableEq α] : List (α × β) → α → β → List (α × β)
  | [], k, v => [(k, v)]
  | (k', v') :: rest, k, v =>
    if k = k' then (k, v) :: rest else (k', v') :: assocSet rest k v

/-- In-place update of the value stored under a key (models mutating a field
of the object held in the map). -/
def updateAssoc {α β : Type} [DecidableEq α] : List (α × β) → α → (β → β) → List (α × β)
  | [], _, _ => []
  | (k', v) :: rest, k, f =>
    if k' = k then (k', f v) :: updateAssoc rest k f
    else (k', v) :: updateAssoc rest k f

/-- Write a key/value into the exports object at heap index `r`. -/
def heapSet (s : RState) (r : Nat) (k : String) (v : Nat) : RState :=
  { s with heap := s.heap.set r ((s.heap.getD r []).filter (fun p => p.1 ≠ k) ++ [(k, v)]) }

/-- Overwrite the module record stored under `id` in the module cache.
This models JavaScript's in-place mutation of the record object: the cache
holds a reference to the very record the instantiation call mutates. -/
def cacheUpdate (s : RState) (id : ModuleId) (f : Module → Module) : RState :=
  { s with moduleCache := updateAssoc s.moduleCache id f }

/-- Modelled from the spec: `interopEsm` (defined in the shared
`runtime-utils.ts`, which is outside the sampled sources) "merge/interop the
two so all holders observe consistent bindings" — modelled as copying the
exports object's entries into the namespace object.  It only touches the
heap.  No factory action of this embedding ever sets `namespaceObject`, so
this step is never reached in any run considered here; it is included so the
control flow of `instantiateModule` is complete. -/
def interopEsmStep (s : RState) (exportsRef nsRef : Nat) : RState :=
  { s with heap := s.heap.set nsRef ((s.heap.getD nsRef []) ++ (s.heap.getD exportsRef [])) }

/-- Modelled from the spec: the exception thrown by Node's `require` when
the chunk file cannot be resolved (external to the repository). -/
def requireFailure (chunkPath : ChunkPath) : Err :=
  Err.error ("Cannot find module " ++ chunkPath)

/-- `getOrInstantiateModuleFromParent` (runtime.ts lines 314-328),
parametrised by the instantiation function so it can be used inside the
fuelled interpreter: return the cached record if present, otherwise
instantiate with `Parent` provenance taken from the requiring module. -/
def getOrParentWith
    (inst : ModuleId → SourceInfo → RState → RState × Except Err Module)
    (id : ModuleId) (sourceModule : Module) (s : RState) :
    RState × Except Err Module :=
  match assocFind s.moduleCache id with
  | some m => (s, Except.ok m)
  | none => inst id (SourceInfo.parent sourceModule.id) s

/-- Run a factory body.  `req` is the synchronous require capability (the
`r` binder of the factory context, which delegates to
`getOrInstantiateModuleFromParent` with the current record as source
module).  A thrown error or an error propagating out of a nested require
aborts the body and is returned.  Each successful require appends an
observation of the required module's exports reference and loaded flag. -/
def runFactoryWith
    (req : ModuleId → Module → RState → RState × Except Err Module)
    (self : Module) : List FAction → RState → RState × Option Err
  | [], s => (s, none)
  | FAction.require target :: rest, s =>
    match req target self s with
    | (s1, Except.error e) => (s1, some e)
    | (s1, Except.ok m) =>
      runFactoryWith req self rest
        { s1 with requireTrace :=
            s1.requireTrace ++ [⟨self.id, target, m.exportsRef, m.loaded⟩] }
  | FAction.setExport k v :: rest, s =>
    runFactoryWith req self rest (heapSet s self.exportsRef k v)
  | FAction.throwErr c :: _, s => (s, some (Err.user c))

/-- The fresh module record created by `instantiateModule` (runtime.ts lines
254-260) before the factory runs: a freshly allocated empty exports object,
`error = undefined`, `loaded = false`. -/
def freshModule (id : ModuleId) (s : RState) : Module :=
  { ref := s.nextModuleRef
    id := id
    exportsRef := s.heap.length
    error := none
    loaded := false
    namespaceObject := none }

/-- State after creating the fresh record and publishing it in the module
cache (runtime.ts line 261) — BEFORE the factory runs — with the imminent
factory invocation recorded in `callLog`. -/
def insertFresh (id : ModuleId) (s : RState) : RState :=
  { s with
    heap := s.heap ++ [[]]
    nextModuleRef := s.nextModuleRef + 1
    moduleCache := assocSet s.moduleCache id (freshModule id s)
    callLog := s.callLog ++ [id] }

/-- The tail of `instantiateModule` after the factory ran (runtime.ts lines
296-307), given the state `t2` and outcome `err` of the factory run: on a
throw, record the error on the record and rethrow; on success mark the
record loaded and perform the ESM namespace interop when the module produced
a distinct namespace object.  The record mutations are written back into the
cache: the cache holds the very record object being mutated, and nested calls
never replace the entry (every nested instantiation is guarded by a cache
lookup). -/
def finishInstantiation (id : ModuleId) (m : Module) (t2 : RState)
    (err : Option Err) : RState × Except Err Module :=
  match err with
  | some e =>
    (cacheUpdate t2 id (fun _ => { m with error := some e }), Except.error e)
  | none =>
    match m.namespaceObject with
    | some nsRef =>
      if nsRef ≠ m.exportsRef then
        (interopEsmStep (cacheUpdate t2 id (fun _ => { m with loaded := true }))
          m.exportsRef nsRef,
         Except.ok { m with loaded := true })
      else
        (cacheUpdate t2 id (fun _ => { m with loaded := true }),
         Except.ok { m with loaded := true })
    | none =>
      (cacheUpdate t2 id (fun _ => { m with loaded := true }),
       Except.ok { m with loaded := true })

/-- The factory-available branch of `instantiateModule`: publish the fresh
record, run the factory body with the parent-tagged require capability, then
finish. -/
def instantiateWithFactory (env : Env)
    (inst : ModuleId → SourceInfo → RState → RState × Except Err Module)
    (id : ModuleId) (fref : FactoryRef) (s : RState) :
    RState × Except Err Module :=
  finishInstantiation id (freshModule id s)
    (runFactoryWith (getOrParentWith inst) (freshModule id s)
      ((assocFind env.code fref).getD []) (insertFresh id s)).1
    (runFactoryWith (getOrParentWith inst) (freshModule id s)
      ((assocFind env.code fref).getD []) (insertFresh id s)).2

/-- The body of `instantiateModule` (runtime.ts lines 232-308), parametrised
by the function used for nested instantiations: look up the factory and fail
with the provenance-bearing message if it is missing; otherwise run the
factory-available branch. -/
def instantiateBody (env : Env)
    (inst : ModuleId → SourceInfo → RState → RState × Except Err Module)
    (id : ModuleId) (source : SourceInfo) (s : RState) :
    RState × Except Err Module :=
  match assocFind s.moduleFactories id with
  | none =>
    let instantiationReason :=
      match source with
      | SourceInfo.runtime chunkPath => "as a runtime entry of chunk " ++ chunkPath
      | SourceInfo.parent parentId => "because it was required from module " ++ parentId
    (s, Except.error (Err.error ("Module " ++ id ++ " was instantiated " ++
      instantiationReason ++
      ", but the module factory is not available. It might have been deleted in an HMR update.")))
  | some fref => instantiateWithFactory env inst id fref s

/-- `instantiateModule` (runtime.ts lines 232-308), fuelled: each nested
instantiation burns one unit of fuel; with fuel 0 the interpreter gives up
with the distinguished `Err.fuel` (never reached with sufficient fuel). -/
def instantiateModule (env : Env) : Nat → ModuleId → SourceInfo → RState → RState × Except Err Module
  | 0, _, _, s => (s, Except.error Err.fuel)
  | Nat.succ fuel, id, source, s =>
    instantiateBody env (instantiateModule env fuel) id source s

/-- `getOrInstantiateModuleFromParent` (runtime.ts lines 314-328) at the
top level. -/
def getOrInstantiateModuleFromParent (env : Env) (fuel : Nat)
    (id : ModuleId) (sourceModule : Module) (s : RState) :
    RState × Except Err Module :=
  getOrParentWith (instantiateModule env fuel) id sourceModule s

/-- `instantiateRuntimeModule` (runtime.ts lines 333-338). -/
def instantiateRuntimeModule (env : Env) (fuel : Nat)
    (moduleId : ModuleId) (chunkPath : ChunkPath) (s : RState) :
    RState × Except Err Module :=
  instantiateModule env fuel moduleId (SourceInfo.runtime chunkPath) s

/-- `getOrInstantiateRuntimeModule` (runtime.ts lines 344-357): a cached
record with a recorded error is re-raised; a healthy cached record is
returned; otherwise instantiate as a runtime module. -/
def getOrInstantiateRuntimeModule (env : Env) (fuel : Nat)
    (moduleId : ModuleId) (chunkPath : ChunkPath) (s : RState) :
    RState × Except Err Module :=
  match assocFind s.moduleCache moduleId with
  | some m =>
    match m.error with
    | some e => (s, Except.error e)
    | none => (s, Except.ok m)
  | none => instantiateRuntimeModule env fuel moduleId chunkPath s

/-- Whether a character is a JavaScript line terminator (U+000A, U+000D,
U+2028, U+2029) — the characters `.` does NOT match in a regex without the
`s` flag. -/
def isLineTerminator (c : Char) : Bool :=
  c == '\n' || c == '\r' || c == '\u2028' || c == '\u2029'

/-- Whether a character list contains no line terminator — the strings the
regex piece `.*` can absorb. -/
def noLineTerm : List Char → Bool
  | [] => true
  | c :: rest => !(isLineTerminator c) && noLineTerm rest

/-- Whether a remainder completes a match after the query opener `?` was
consumed: `[^#]*` (which matches any character other than `#`, line
terminators included) extends to the first `#` if any; if there is no `#`
the query absorbs everything; otherwise the fragment `#.*` starts at that
first `#` and its body must contain no line terminator for `$` (no `m`
flag: true end of input only) to be reached. -/
def queryRest : List Char → Bool
  | [] => true
  | c :: rest => if c = '#' then noLineTerm rest else queryRest rest

/-- Whether the remainder after a `.js` occurrence completes a match of
`\.js(?:\?[^#]*)?(?:#.*)?$` under JavaScript regex semantics: the remainder
is empty; or it starts the optional fragment (`#` followed by `.*`, whose
body must be free of line terminators); or it starts the optional query
(`?` followed by `[^#]*`, handled by `queryRest`). -/
def restOk : List Char → Bool
  | [] => true
  | c :: rest =>
    if c = '#' then noLineTerm rest
    else if c = '?' then queryRest rest
    else false

/-- Whether the character list starts with `js` followed by a remainder
completing the match. -/
def startsJsTail : List Char → Bool
  | a :: b :: r => a == 'j' && b == 's' && restOk r
  | _ => false

/-- Scan for an occurrence of `.js` whose remainder completes the match
(the regex is anchored at the end only, so any position may start it). -/
def isJsList : List Char → Bool
  | [] => false
  | c :: rest => (c == '.' && startsJsTail rest) || isJsList rest

/-- `isJs` (runtime.ts lines 359-365): test of the regex
`\.js(?:\?[^#]*)?(?:#.*)?$` against the chunk path. -/
def isJs (chunkUrlOrPath : String) : Bool :=
  isJsList chunkUrlOrPath.data

/-- Register one entry of a chunk's module table (the loop body of
runtime.ts lines 119-131 and 153-165): skip the whole entry when the
PRIMARY id already has a factory; otherwise register the factory for the
primary id and, for a compressed entry, unconditionally for every alias id. -/
def registerOne (mf : List (ModuleId × FactoryRef)) (moduleId : ModuleId)
    (entry : CompressedEntry) : List (ModuleId × FactoryRef) :=
  if (assocFind mf moduleId).isSome then mf
  else
    match entry with
    | CompressedEntry.plain f => assocSet mf moduleId f
    | CompressedEntry.compressed f otherIds =>
      otherIds.foldl (fun acc oid => assocSet acc oid f) (assocSet mf moduleId f)

/-- Register all entries of a chunk's module table, in order. -/
def registerChunkModules (mf : List (ModuleId × FactoryRef)) :
    ChunkTable → List (ModuleId × FactoryRef)
  | [] => mf
  | (mid, e) :: rest => registerChunkModules (registerOne mf mid e) rest

/-- `loadChunkPath` (runtime.ts lines 104-144): no-op for non-JS chunk
paths; no-op when the path is already in the loaded-chunk set; otherwise
`require` the chunk file (recorded in `chunkLoadLog`), merge its module
table into the factory registry and add the path to the loaded-chunk set —
or, when requiring fails, throw a wrapped error carrying the provenance and
leave the loaded-chunk set untouched. -/
def loadChunkPath (env : Env) (chunkPath : ChunkPath) (source : Option SourceInfo)
    (s : RState) : RState × Except Err Unit :=
  if isJs chunkPath then
    if chunkPath ∈ s.loadedChunks then (s, Except.ok ())
    else
      let s1 := { s with chunkLoadLog := s.chunkLoadLog ++ [chunkPath] }
      match assocFind env.chunks chunkPath with
      | none =>
        let errorMessage := "Failed to load chunk " ++ chunkPath ++
          (match source with
           | some src => " from " ++ stringifySourceInfo src
           | none => "")
        (s1, Except.error (Err.errorCause errorMessage (requireFailure chunkPath)))
      | some chunkModules =>
        ({ s1 with
            moduleFactories := registerChunkModules s1.moduleFactories chunkModules
            loadedChunks := s1.loadedChunks ++ [chunkPath] },
         Except.ok ())
  else (s, Except.ok ())

/-- `loadChunkUncached` (runtime.ts lines 146-166): `require` the chunk file
(recorded in `chunkLoadLog`) and merge its module table into the factory
registry; propagates the raw `require` failure; touches neither the
loaded-chunk set nor the chunk cache. -/
def loadChunkUncached (env : Env) (chunkPath : ChunkPath) (s : RState) :
    RState × Except Err Unit :=
  let s1 := { s with chunkLoadLog := s.chunkLoadLog ++ [chunkPath] }
  match assocFind env.chunks chunkPath with
  | none => (s1, Except.error (requireFailure chunkPath))
  | some chunkModules =>
    ({ s1 with moduleFactories := registerChunkModules s1.moduleFactories chunkModules },
     Except.ok ())

/-- `loadChunkAsync` (runtime.ts lines 168-202).  The returned promise is
modelled as the `Except Err Unit` outcome; the chunk cache memoizes it per
path (including failures: the same rejected outcome is handed to every
later caller).  Non-JS chunk paths resolve immediately (the shared
`unsupportedLoadChunk` promise) without touching any state.  `chunkData`
is the string form of `ChunkData` (the object form only contributes its
`path`). -/
def loadChunkAsync (env : Env) (source : SourceInfo) (chunkData : ChunkPath)
    (s : RState) : RState × Except Err Unit :=
  let chunkPath := chunkData
  if isJs chunkPath then
    match assocFind s.chunkCache chunkPath with
    | some entry => (s, entry)
    | none =>
      let r := loadChunkUncached env chunkPath s
      let entry : Except Err Unit :=
        match r.2 with
        | Except.ok _ => Except.ok ()
        | Except.error e =>
          Except.error (Err.errorCause
            ("Failed to load chunk " ++ chunkPath ++ " from " ++ stringifySourceInfo source) e)
      ({ r.1 with chunkCache := assocSet r.1.chunkCache chunkPath entry }, entry)
  else (s, Except.ok ())

/-- `clearChunkCache` (runtime.ts lines 100-102). -/
def clearChunkCache (s : RState) : RState :=
  { s with chunkCache := [] }

/-! ### Association list lemmas -/

/-- Lookup after insertion. -/
theorem assocFind_assocSet {α β : Type} [DecidableEq α] (l : List (α × β)) (k : α) (v : β)
    (x : α) : assocFind (assocSet l k v) x = if x = k then some v else assocFind l x := by
  induction l with
  | nil => simp [assocSet, assocFind]
  | cons hd tl ih =>
    obtain ⟨k1, v1⟩ := hd
    by_cases hk : k = k1
    · subst hk
      by_cases hx : x = k <;> simp [assocSet, assocFind, hx]
    · by_cases hx : x = k1
      · subst hx
        have hxk : x ≠ k := fun h => hk h.symm
        simp [assocSet, assocFind, hk, hxk]
      · simp [assocSet, assocFind, hk, hx, ih]

/-- Lookup after an in-place update. -/
theorem assocFind_updateAssoc {α β : Type} [DecidableEq α] (l : List (α × β)) (k : α)
    (f : β → β) (x : α) :
    assocFind (updateAssoc l k f) x = if x = k then (assocFind l x).map f else assocFind l x := by
  induction l with
  | nil => simp [updateAssoc, assocFind]
  | cons hd tl ih =>
    obtain ⟨k1, v1⟩ := hd
    by_cases hk : k1 = k
    · subst hk
      by_cases hx : x = k1 <;> simp [updateAssoc, assocFind, hx, ih]
    · by_cases hx : x = k1
      · subst hx
        have hxk : x ≠ k := fun h => hk h
        simp [updateAssoc, assocFind, hk, hxk]
      · simp [updateAssoc, assocFind, hk, hx, ih]

/-! ### C2: missing factory -/

/-- **C2** — For an id with no registered factory, `instantiateModule` throws an
error whose message includes the human-readable provenance (runtime-entry-of-chunk
wording for `SourceType.Runtime`, required-from-parent wording for
`SourceType.Parent`) and creates no module-cache entry: the returned state is the
input state unchanged. -/
theorem instantiateModule_missing_factory (env : Env) (fuel : Nat) (id : ModuleId)
    (s : RState) (chunkPath : ChunkPath) (parentId : ModuleId) (source : SourceInfo)
    (h : assocFind s.moduleFactories id = none) :
    (∃ a b, instantiateModule env (Nat.succ fuel) id (SourceInfo.runtime chunkPath) s =
        (s, Except.error (Err.error (a ++ ("as a runtime entry of chunk " ++ chunkPath) ++ b))) ∧
      a = "Module " ++ id ++ " was instantiated " ∧
      b = ", but the module factory is not available. It might have been deleted in an HMR update.") ∧
    (∃ a b, instantiateModule env (Nat.succ fuel) id (SourceInfo.parent parentId) s =
        (s, Except.error (Err.error (a ++ ("because it was required from module " ++ parentId) ++ b))) ∧
      a = "Module " ++ id ++ " was instantiated " ∧
      b = ", but the module factory is not available. It might have been deleted in an HMR update.") ∧
    (instantiateModule env (Nat.succ fuel) id source s).1 = s := by
  refine ⟨⟨_, _, ?_, rfl, rfl⟩, ⟨_, _, ?_, rfl, rfl⟩, ?_⟩
  · simp [instantiateModule, instantiateBody, h]
  · simp [instantiateModule, instantiateBody, h]
  · cases source <;> simp [instantiateModule, instantiateBody, h]

/-- Witness for C2 at a concrete input. -/
theorem instantiateModule_missing_factory_witness :
    (∃ a b, instantiateModule { chunks := [], code := [] } (Nat.succ 0) "m1"
        (SourceInfo.runtime "chunk.js") initState =
        (initState, Except.error (Err.error (a ++ ("as a runtime entry of chunk " ++ "chunk.js") ++ b))) ∧
      a = "Module " ++ "m1" ++ " was instantiated " ∧
      b = ", but the module factory is not available. It might have been deleted in an HMR update.") ∧
    (∃ a b, instantiateModule { chunks := [], code := [] } (Nat.succ 0) "m1"
        (SourceInfo.parent "p1") initState =
        (initState, Except.error (Err.error (a ++ ("because it was required from module " ++ "p1") ++ b))) ∧
      a = "Module " ++ "m1" ++ " was instantiated " ∧
      b = ", but the module factory is not available. It might have been deleted in an HMR update.") ∧
    (instantiateModule { chunks := [], code := [] } (Nat.succ 0) "m1"
      (SourceInfo.runtime "chunk.js") initState).1 = initState :=
  instantiateModule_missing_factory { chunks := [], code := [] } 0 "m1" initState
    "chunk.js" "p1" (SourceInfo.runtime "chunk.js") rfl

/-! ### C3: broken-record asymmetry -/

/-- **C3** — If a module's cached record has `error` set and `loaded` still false
(its factory threw during instantiation), then the parent-path lookup returns the
broken record without throwing while the runtime-entry lookup throws the recorded
error instead of returning the record. -/
theorem broken_record_asymmetry (env : Env) (fuel1 fuel2 : Nat) (id : ModuleId)
    (m : Module) (e : Err) (chunkPath : ChunkPath) (sourceModule : Module) (s : RState)
    (hc : assocFind s.moduleCache id = some m) (he : m.error = some e)
    (_hl : m.loaded = false) :
    getOrInstantiateModuleFromParent env fuel1 id sourceModule s = (s, Except.ok m) ∧
    getOrInstantiateRuntimeModule env fuel2 id chunkPath s = (s, Except.error e) := by
  constructor
  · simp [getOrInstantiateModuleFromParent, getOrParentWith, hc]
  · simp [getOrInstantiateRuntimeModule, hc, he]

/-- A concrete broken module record for the C3 witness. -/
def brokenModule : Module :=
  { ref := 0, id := "bad", exportsRef := 0, error := some (Err.user 3)
    loaded := false, namespaceObject := none }

/-- A concrete state caching the broken record for the C3 witness. -/
def brokenState : RState :=
  { initState with moduleCache := [("bad", brokenModule)], heap := [[]], nextModuleRef := 1 }

/-- Witness for C3 at a concrete input. -/
theorem broken_record_asymmetry_witness :
    getOrInstantiateModuleFromParent { chunks := [], code := [] } 1 "bad" brokenModule
      brokenState = (brokenState, Except.ok brokenModule) ∧
    getOrInstantiateRuntimeModule { chunks := [], code := [] } 1 "bad" "entry.js"
      brokenState = (brokenState, Except.error (Err.user 3)) :=
  broken_record_asymmetry { chunks := [], code := [] } 1 1 "bad" brokenModule
    (Err.user 3) "entry.js" brokenModule brokenState rfl rfl rfl

/-! ### C9: non-executable chunk paths are no-ops -/

/-- Both chunk loaders are pure no-ops on paths the JS test rejects. -/
theorem nonJs_noop_aux (env : Env) (source : Option SourceInfo) (source2 : SourceInfo)
    (chunkPath : ChunkPath) (s : RState) (h : isJs chunkPath = false) :
    loadChunkPath env chunkPath source s = (s, Except.ok ()) ∧
    loadChunkAsync env source2 chunkPath s = (s, Except.ok ()) := by
  constructor
  · simp [loadChunkPath, h]
  · simp [loadChunkAsync, h]

/-- **C9** — For a chunk path that is not an executable JS chunk, `loadChunkPath`
returns without raising and `loadChunkAsync` returns a successfully resolved void
deferred; neither call modifies any state (factory registry, module cache,
loaded-chunk set, chunk cache): the returned state is the input state itself. -/
theorem nonJs_chunk_noop (env : Env) (source : Option SourceInfo) (source2 : SourceInfo)
    (chunkPath : ChunkPath) (s : RState) (h : isJs chunkPath = false) :
    loadChunkPath env chunkPath source s = (s, Except.ok ()) ∧
    loadChunkAsync env source2 chunkPath s = (s, Except.ok ()) :=
  nonJs_noop_aux env source source2 chunkPath s h

/-- Witness for C9 at a concrete input (a stylesheet chunk path). -/
theorem nonJs_chunk_noop_witness :
    loadChunkPath { chunks := [], code := [] } "style.css" none initState =
      (initState, Except.ok ()) ∧
    loadChunkAsync { chunks := [], code := [] } (SourceInfo.runtime "r.js") "style.css"
      initState = (initState, Except.ok ()) :=
  nonJs_chunk_noop { chunks := [], code := [] } none (SourceInfo.runtime "r.js")
    "style.css" initState (by decide)

/-! ### C5: circular dependency support -/

/-- Environment for the circular-dependency scenario: module `A`'s factory
requires `B` then writes an export; module `B`'s factory requires `A` back
then writes an export. -/
def envCycle : Env :=
  { chunks := []
    code := [(1, [FAction.require "B", FAction.setExport "a" 1]),
             (2, [FAction.require "A", FAction.setExport "b" 2])] }

/-- Initial state with the two factories of the cycle registered. -/
def cycleState : RState :=
  { initState with moduleFactories := [("A", 1), ("B", 2)] }

/-- The run of the circular-dependency scenario. -/
def cycleRun : RState × Except Err Module :=
  getOrInstantiateRuntimeModule envCycle 5 "A" "entry.js" cycleState

/-- **C5** — `instantiateModule` inserts the fresh record (empty exports,
`loaded = false`, no error) into the module cache before calling the factory:
in the cycle where `A`'s factory requires `B` and `B`'s factory requires `A`
back, the exports reference `B` obtains while `A` is still instantiating
(`loadedAtObservation = false`) is the same reference as `A`'s final exports
object after both factories complete — witnessed by `A`'s final export write
being visible through that very reference. -/
theorem circular_dependency_exports_identity :
    ∃ mA obs,
      cycleRun.2 = Except.ok mA ∧
      obs ∈ cycleRun.1.requireTrace ∧
      obs.requirer = "B" ∧ obs.required = "A" ∧
      obs.loadedAtObservation = false ∧
      obs.exportsRef = mA.exportsRef ∧
      mA.loaded = true ∧
      assocFind cycleRun.1.moduleCache "A" = some mA ∧
      cycleRun.1.heap.getD mA.exportsRef [] = [("a", 1)] := by
  refine ⟨{ ref := 0, id := "A", exportsRef := 0, error := none, loaded := true,
            namespaceObject := none },
          { requirer := "B", required := "A", exportsRef := 0,
            loadedAtObservation := false }, ?_⟩
  decide

/-! ### C6: first-writer-wins, corrected -/

/-- Environment for the alias-overwrite counterexample: chunk `c.js` declares a
compressed entry under primary id `Y` whose alias list contains `X`. -/
def envAlias : Env :=
  { chunks := [("c.js", [("Y", CompressedEntry.compressed 2 ["X"])])], code := [] }

/-- State in which id `X` already has factory 1 registered. -/
def aliasState : RState :=
  { initState with moduleFactories := [("X", 1)] }

/-- **C6 counterexample** — the claim "the first registered factory is kept …
regardless of whether the id appears as a primary id or as an alias id" is false
on the code: `X` starts with factory 1, but loading a chunk whose table holds a
compressed entry `[factory 2, ["X"]]` under the unregistered primary id `Y`
overwrites `X`'s factory with 2 (alias ids are assigned unconditionally,
runtime.ts lines 124-126). -/
theorem alias_overwrite_counterexample :
    assocFind aliasState.moduleFactories "X" = some 1 ∧
    assocFind (loadChunkPath envAlias "c.js" none aliasState).1.moduleFactories "X" = some 2 ∧
    (2 : FactoryRef) ≠ 1 := by
  refine ⟨rfl, ?_, by decide⟩
  decide

/-- The alias ids occurring in a chunk table (the ids written unconditionally by
the registration loop). -/
def aliasIdsOf : ChunkTable → List ModuleId
  | [] => []
  | (_, CompressedEntry.plain _) :: rest => aliasIdsOf rest
  | (_, CompressedEntry.compressed _ otherIds) :: rest => otherIds ++ aliasIdsOf rest

/-- Folding `assocSet` over ids not containing `x` leaves `x`'s binding alone. -/
theorem assocFind_foldl_assocSet {β : Type} (others : List ModuleId) (f : β)
    (acc : List (ModuleId × β)) (x : ModuleId) (h : x ∉ others) :
    assocFind (others.foldl (fun a oid => assocSet a oid f) acc) x = assocFind acc x := by
  induction others generalizing acc with
  | nil => rfl
  | cons hd tl ih =>
    have hx : x ≠ hd := fun hh => h (hh ▸ List.mem_cons_self hd tl)
    have htl : x ∉ tl := fun hh => h (List.mem_cons_of_mem hd hh)
    simp only [List.foldl_cons]
    rw [ih (assocSet acc hd f) htl, assocFind_assocSet, if_neg hx]

/-- Registering one chunk-table entry keeps the binding of an id that already
has a factory, provided the id is not among the entry's alias ids. -/
theorem registerOne_keeps (mf : List (ModuleId × FactoryRef)) (mid : ModuleId)
    (e : CompressedEntry) (x : ModuleId) (f : FactoryRef)
    (h : assocFind mf x = some f)
    (hal : ∀ fr others, e = CompressedEntry.compressed fr others → x ∉ others) :
    assocFind (registerOne mf mid e) x = some f := by
  unfold registerOne
  by_cases hp : (assocFind mf mid).isSome = true
  · simp [hp, h]
  · have hxmid : x ≠ mid := by
      intro hh
      subst hh
      rw [h] at hp
      exact hp rfl
    rw [if_neg hp]
    cases e with
    | plain fr => rw [assocFind_assocSet, if_neg hxmid]; exact h
    | compressed fr others =>
      rw [assocFind_foldl_assocSet others fr _ x (hal fr others rfl),
        assocFind_assocSet, if_neg hxmid]
      exact h

/-- Registering a whole chunk table keeps the binding of an id that already has
a factory, provided the id is not among the table's alias ids. -/
theorem registerChunkModules_keeps (table : ChunkTable)
    (mf : List (ModuleId × FactoryRef)) (x : ModuleId) (f : FactoryRef)
    (h : assocFind mf x = some f) (hal : x ∉ aliasIdsOf table) :
    assocFind (registerChunkModules mf table) x = some f := by
  induction table generalizing mf with
  | nil => exact h
  | cons hd rest ih =>
    obtain ⟨mid, e⟩ := hd
    have hone : assocFind (registerOne mf mid e) x = some f := by
      apply registerOne_keeps mf mid e x f h
      intro fr others he
      subst he
      simp only [aliasIdsOf, List.mem_append] at hal
      exact fun hm => hal (Or.inl hm)
    have hrest : x ∉ aliasIdsOf rest := by
      cases e with
      | plain fr => simpa [aliasIdsOf] using hal
      | compressed fr others =>
        simp only [aliasIdsOf, List.mem_append] at hal
        exact fun hm => hal (Or.inr hm)
    exact ih (registerOne mf mid e) hone hrest

/-- **C6 amended** — first-writer-wins holds for ids in primary position only:
across `loadChunkPath` and `loadChunkUncached`, an id that already has a factory
and does not occur among any compressed entry's alias ids keeps its first
factory (later, different factories for it are discarded); an alias id of a
compressed entry whose primary id is unregistered is overwritten unconditionally
(see the counterexample). -/
theorem first_writer_wins_primary (env : Env) (chunkPath : ChunkPath)
    (source : Option SourceInfo) (s : RState) (x : ModuleId) (f : FactoryRef)
    (h : assocFind s.moduleFactories x = some f)
    (hal : ∀ table, assocFind env.chunks chunkPath = some table → x ∉ aliasIdsOf table) :
    assocFind (loadChunkPath env chunkPath source s).1.moduleFactories x = some f ∧
    assocFind (loadChunkUncached env chunkPath s).1.moduleFactories x = some f := by
  constructor
  · unfold loadChunkPath
    by_cases hjs : isJs chunkPath
    · simp only [hjs, if_true]
      by_cases hmem : chunkPath ∈ s.loadedChunks
      · simp [hmem, h]
      · simp only [hmem, if_false]
        cases hch : assocFind env.chunks chunkPath with
        | none => simp [hch, h]
        | some table =>
          simp only [hch]
          exact registerChunkModules_keeps table _ x f h (hal table hch)
    · simp [hjs, h]
  · unfold loadChunkUncached
    cases hch : assocFind env.chunks chunkPath with
    | none => simp [hch, h]
    | some table =>
      simp only [hch]
      exact registerChunkModules_keeps table _ x f h (hal table hch)

/-- Witness for the amended C6 at a concrete input: `X` already has factory 1,
the loaded chunk redundantly declares `X` (primary position) with factory 2, and
the first factory is kept by both loaders. -/
theorem first_writer_wins_primary_witness :
    assocFind ((loadChunkPath
        { chunks := [("d.js", [("X", CompressedEntry.plain 2)])], code := [] }
        "d.js" none aliasState).1.moduleFactories) "X" = some 1 ∧
    assocFind ((loadChunkUncached
        { chunks := [("d.js", [("X", CompressedEntry.plain 2)])], code := [] }
        "d.js" aliasState).1.moduleFactories) "X" = some 1 :=
  first_writer_wins_primary
    { chunks := [("d.js", [("X", CompressedEntry.plain 2)])], code := [] }
    "d.js" none aliasState "X" 1 rfl
    (by intro table htab hmem; cases htab; simp [aliasIdsOf] at hmem)

/-! ### C7: compressed alias registration -/

/-- **C7** — Loading a chunk whose table is the compressed entry
`[factory, [idB, idC]]` under primary id `idA`, when none of the three ids has a
factory yet, registers the identical factory reference for `idA`, `idB` and
`idC` in that single registration step. -/
theorem compressed_alias_registration (env : Env) (chunkPath : ChunkPath)
    (source : Option SourceInfo) (s : RState) (idA idB idC : ModuleId)
    (fr : FactoryRef)
    (hch : assocFind env.chunks chunkPath =
      some [(idA, CompressedEntry.compressed fr [idB, idC])])
    (hjs : isJs chunkPath = true) (hmem : chunkPath ∉ s.loadedChunks)
    (hA : assocFind s.moduleFactories idA = none)
    (_hB : assocFind s.moduleFactories idB = none)
    (_hC : assocFind s.moduleFactories idC = none) :
    assocFind (loadChunkPath env chunkPath source s).1.moduleFactories idA = some fr ∧
    assocFind (loadChunkPath env chunkPath source s).1.moduleFactories idB = some fr ∧
    assocFind (loadChunkPath env chunkPath source s).1.moduleFactories idC = some fr := by
  unfold loadChunkPath
  simp only [hjs, if_true, hmem, if_false, hch]
  simp only [registerChunkModules, registerOne, hA, Option.isSome_none,
    Bool.false_eq_true, if_false, List.foldl_cons, List.foldl_nil]
  refine ⟨?_, ?_, ?_⟩ <;>
    · simp only [assocFind_assocSet]
      split_ifs <;> rfl

/-- Witness for C7 at a concrete input. -/
theorem compressed_alias_registration_witness :
    assocFind ((loadChunkPath
        { chunks := [("e.js", [("a1", CompressedEntry.compressed 7 ["b1", "c1"])])],
          code := [] } "e.js" none initState).1.moduleFactories) "a1" = some 7 ∧
    assocFind ((loadChunkPath
        { chunks := [("e.js", [("a1", CompressedEntry.compressed 7 ["b1", "c1"])])],
          code := [] } "e.js" none initState).1.moduleFactories) "b1" = some 7 ∧
    assocFind ((loadChunkPath
        { chunks := [("e.js", [("a1", CompressedEntry.compressed 7 ["b1", "c1"])])],
          code := [] } "e.js" none initState).1.moduleFactories) "c1" = some 7 :=
  compressed_alias_registration
    { chunks := [("e.js", [("a1", CompressedEntry.compressed 7 ["b1", "c1"])])],
      code := [] }
    "e.js" none initState "a1" "b1" "c1" 7 rfl (by decide) (by decide) rfl rfl rfl

/-! ### C4: negative caching of async chunk loads -/

/-- The uncached loader always records exactly one loader invocation for its
chunk path. -/
theorem loadChunkUncached_log (env : Env) (chunkPath : ChunkPath) (s : RState) :
    (loadChunkUncached env chunkPath s).1.chunkLoadLog = s.chunkLoadLog ++ [chunkPath] := by
  unfold loadChunkUncached
  cases assocFind env.chunks chunkPath <;> rfl

/-- **C4** — After `loadChunkAsync` yields a rejected result for a path, the
rejection is memoized in the chunk cache; every subsequent `loadChunkAsync` call
for the same path returns the identical memoized rejected deferred (same error)
with the state untouched — in particular without re-invoking the underlying
chunk loader; after an explicit `clearChunkCache`, the next call re-invokes the
loader (one new entry appears in the loader-invocation log). -/
theorem loadChunkAsync_negative_caching (env : Env) (source source2 source3 : SourceInfo)
    (chunkPath : ChunkPath) (s s1 : RState) (e : Err)
    (h : loadChunkAsync env source chunkPath s = (s1, Except.error e)) :
    assocFind s1.chunkCache chunkPath = some (Except.error e) ∧
    loadChunkAsync env source2 chunkPath s1 = (s1, Except.error e) ∧
    (loadChunkAsync env source3 chunkPath (clearChunkCache s1)).1.chunkLoadLog =
      s1.chunkLoadLog ++ [chunkPath] := by
  by_cases hjs : isJs chunkPath
  · unfold loadChunkAsync at h
    rw [if_pos hjs] at h
    have hcache : assocFind s1.chunkCache chunkPath = some (Except.error e) := by
      cases hcc : assocFind s.chunkCache chunkPath with
      | some entry =>
        rw [hcc] at h
        simp only at h
        injection h with hs he
        subst hs
        rw [← he]
        exact hcc
      | none =>
        rw [hcc] at h
        simp only at h
        injection h with hs he
        subst hs
        rw [assocFind_assocSet, if_pos rfl, he]
    refine ⟨hcache, ?_, ?_⟩
    · unfold loadChunkAsync
      rw [if_pos hjs, hcache]
    · unfold loadChunkAsync
      have : assocFind (clearChunkCache s1).chunkCache chunkPath = none := rfl
      rw [if_pos hjs, this]
      simp only
      rw [loadChunkUncached_log]
      rfl
  · unfold loadChunkAsync at h
    rw [if_neg hjs] at h
    injection h with hs he
    exact absurd he (fun hh => Except.noConfusion hh)

/-- The rejected state of the C4 witness scenario (loading a chunk that does not
exist). -/
def rejectedState : RState :=
  (loadChunkAsync { chunks := [], code := [] } (SourceInfo.runtime "r.js")
    "missing.js" initState).1

/-- The memoized rejection of the C4 witness scenario. -/
def rejectedError : Err :=
  Err.errorCause "Failed to load chunk missing.js from runtime for chunk r.js"
    (Err.error "Cannot find module missing.js")

/-- Witness for C4 at a concrete input. -/
theorem loadChunkAsync_negative_caching_witness :
    assocFind rejectedState.chunkCache "missing.js" = some (Except.error rejectedError) ∧
    loadChunkAsync { chunks := [], code := [] } (SourceInfo.parent "p") "missing.js"
      rejectedState = (rejectedState, Except.error rejectedError) ∧
    (loadChunkAsync { chunks := [], code := [] } (SourceInfo.parent "q") "missing.js"
      (clearChunkCache rejectedState)).1.chunkLoadLog =
      rejectedState.chunkLoadLog ++ ["missing.js"] :=
  loadChunkAsync_negative_caching { chunks := [], code := [] }
    (SourceInfo.runtime "r.js") (SourceInfo.parent "p") (SourceInfo.parent "q")
    "missing.js" initState rejectedState rejectedError (by decide)

/-! ### C8: synchronous chunk loading is idempotent -/

/-- A loaded-chunk-set hit makes `loadChunkPath` a no-op. -/
theorem loadChunkPath_mem_noop (env : Env) (source : Option SourceInfo)
    (chunkPath : ChunkPath) (t : RState) (hjs : isJs chunkPath = true)
    (hmem : chunkPath ∈ t.loadedChunks) :
    loadChunkPath env chunkPath source t = (t, Except.ok ()) := by
  unfold loadChunkPath
  rw [if_pos hjs, if_pos hmem]

/-- **C8** — Calling `loadChunkPath` twice with the same executable chunk path,
where the first call succeeds from a state in which the path is not yet loaded,
loads the underlying chunk exactly once: the first call records one loader
invocation and adds the path to the loaded-chunk set, and the second call
returns as a no-op via the set-membership check with the state (registry
included) unchanged. -/
theorem loadChunkPath_idempotent (env : Env) (source source2 : Option SourceInfo)
    (chunkPath : ChunkPath) (s : RState)
    (hjs : isJs chunkPath = true) (hmem : chunkPath ∉ s.loadedChunks)
    (hok : (loadChunkPath env chunkPath source s).2 = Except.ok ()) :
    (loadChunkPath env chunkPath source s).1.chunkLoadLog = s.chunkLoadLog ++ [chunkPath] ∧
    chunkPath ∈ (loadChunkPath env chunkPath source s).1.loadedChunks ∧
    loadChunkPath env chunkPath source2 (loadChunkPath env chunkPath source s).1 =
      ((loadChunkPath env chunkPath source s).1, Except.ok ()) := by
  obtain ⟨table, hch⟩ : ∃ table, assocFind env.chunks chunkPath = some table := by
    cases hch : assocFind env.chunks chunkPath with
    | none =>
      unfold loadChunkPath at hok
      rw [if_pos hjs, if_neg hmem, hch] at hok
      exact absurd hok (fun hh => Except.noConfusion hh)
    | some table => exact ⟨table, rfl⟩
  have h1 : loadChunkPath env chunkPath source s =
      ({ s with
          chunkLoadLog := s.chunkLoadLog ++ [chunkPath]
          moduleFactories := registerChunkModules s.moduleFactories table
          loadedChunks := s.loadedChunks ++ [chunkPath] }, Except.ok ()) := by
    unfold loadChunkPath
    rw [if_pos hjs, if_neg hmem, hch]
  have hmem2 : chunkPath ∈ (loadChunkPath env chunkPath source s).1.loadedChunks := by
    rw [h1]
    exact List.mem_append_right _ (List.mem_singleton.mpr rfl)
  exact ⟨by rw [h1], hmem2,
    loadChunkPath_mem_noop env source2 chunkPath _ hjs hmem2⟩

/-- Environment of the C8 witness scenario. -/
def idemEnv : Env :=
  { chunks := [("f.js", [("m", CompressedEntry.plain 4)])], code := [] }

/-- Witness for C8 at a concrete input. -/
theorem loadChunkPath_idempotent_witness :
    (loadChunkPath idemEnv "f.js" none initState).1.chunkLoadLog =
      initState.chunkLoadLog ++ ["f.js"] ∧
    "f.js" ∈ (loadChunkPath idemEnv "f.js" none initState).1.loadedChunks ∧
    loadChunkPath idemEnv "f.js" none (loadChunkPath idemEnv "f.js" none initState).1 =
      ((loadChunkPath idemEnv "f.js" none initState).1, Except.ok ()) :=
  loadChunkPath_idempotent idemEnv none none "f.js" initState (by decide)
    (by decide) (by decide)

/-! ### C1: at most one module record per id -/

/-- `insertFresh` leaves the cache binding of any other id alone. -/
theorem insertFresh_cache_ne (jd x : ModuleId) (t : RState) (hx : x ≠ jd) :
    assocFind (insertFresh jd t).moduleCache x = assocFind t.moduleCache x := by
  simp only [insertFresh]
  rw [assocFind_assocSet, if_neg hx]

/-- `insertFresh` publishes the fresh record under its id. -/
theorem insertFresh_cache_self (jd : ModuleId) (t : RState) :
    assocFind (insertFresh jd t).moduleCache jd = some (freshModule jd t) := by
  simp only [insertFresh]
  rw [assocFind_assocSet, if_pos rfl]

/-- `insertFresh` does not log an invocation of any other id's factory. -/
theorem insertFresh_count_ne (jd x : ModuleId) (t : RState) (hx : x ≠ jd) :
    List.count x (insertFresh jd t).callLog = List.count x t.callLog := by
  simp only [insertFresh]
  rw [List.count_append]
  simp [List.count_cons, hx]

/-- `insertFresh` logs exactly one invocation of its own factory. -/
theorem insertFresh_count_self (jd : ModuleId) (t : RState) :
    List.count jd (insertFresh jd t).callLog = List.count jd t.callLog + 1 := by
  simp only [insertFresh]
  rw [List.count_append]
  simp

/-- `finishInstantiation` never touches the invocation log. -/
theorem finishInstantiation_log (k : ModuleId) (m : Module) (t2 : RState)
    (err : Option Err) : (finishInstantiation k m t2 err).1.callLog = t2.callLog := by
  unfold finishInstantiation
  split
  · rfl
  · split
    · split
      · rfl
      · rfl
    · rfl

/-- `finishInstantiation` leaves the cache binding of any other id alone. -/
theorem finishInstantiation_cache_ne (k x : ModuleId) (m : Module) (t2 : RState)
    (err : Option Err) (hx : x ≠ k) :
    assocFind (finishInstantiation k m t2 err).1.moduleCache x =
      assocFind t2.moduleCache x := by
  unfold finishInstantiation
  split
  · simp only [cacheUpdate]
    rw [assocFind_updateAssoc, if_neg hx]
  · split
    · split
      · simp only [interopEsmStep, cacheUpdate]
        rw [assocFind_updateAssoc, if_neg hx]
      · simp only [cacheUpdate]
        rw [assocFind_updateAssoc, if_neg hx]
    · simp only [cacheUpdate]
      rw [assocFind_updateAssoc, if_neg hx]

/-- `finishInstantiation` stores the finished record (error recorded on a
throw, `loaded = true` on success) under its id, provided the id was cached
when the factory finished. -/
theorem finishInstantiation_cache_id (k : ModuleId) (m : Module) (t2 : RState)
    (err : Option Err) (h : (assocFind t2.moduleCache k).isSome = true) :
    assocFind (finishInstantiation k m t2 err).1.moduleCache k =
      some (match err with
            | some e => { m with error := some e }
            | none => { m with loaded := true }) := by
  obtain ⟨mm, hmm⟩ := Option.isSome_iff_exists.mp h
  unfold finishInstantiation
  split
  · simp only [cacheUpdate]
    rw [assocFind_updateAssoc, if_pos rfl, hmm]
    rfl
  · split
    · split
      · simp only [interopEsmStep, cacheUpdate]
        rw [assocFind_updateAssoc, if_pos rfl, hmm]
        rfl
      · simp only [cacheUpdate]
        rw [assocFind_updateAssoc, if_pos rfl, hmm]
        rfl
    · simp only [cacheUpdate]
      rw [assocFind_updateAssoc, if_pos rfl, hmm]
      rfl

/-- Running a factory body preserves, for any id already present in the
module cache, its presence and the number of invocations of its factory —
provided the require capability does. -/
theorem runFactoryWith_preserves (id : ModuleId)
    (req : ModuleId → Module → RState → RState × Except Err Module)
    (hreq : ∀ jd self t, (assocFind t.moduleCache id).isSome = true →
      (assocFind (req jd self t).1.moduleCache id).isSome = true ∧
      List.count id (req jd self t).1.callLog = List.count id t.callLog)
    (self : Module) (actions : List FAction) (t : RState)
    (ht : (assocFind t.moduleCache id).isSome = true) :
    (assocFind (runFactoryWith req self actions t).1.moduleCache id).isSome = true ∧
    List.count id (runFactoryWith req self actions t).1.callLog =
      List.count id t.callLog := by
  induction actions generalizing t with
  | nil => exact ⟨ht, rfl⟩
  | cons a rest ih =>
    cases a with
    | require target =>
      obtain ⟨h1, h2⟩ := hreq target self t ht
      unfold runFactoryWith
      cases hr : req target self t with
      | mk t1 r =>
        rw [hr] at h1 h2
        cases r with
        | error e => exact ⟨h1, h2⟩
        | ok m =>
          have hrec := ih { t1 with requireTrace :=
            t1.requireTrace ++ [⟨self.id, target, m.exportsRef, m.loaded⟩] } h1
          exact ⟨hrec.1, hrec.2.trans h2⟩
    | setExport k v =>
      unfold runFactoryWith
      exact ih (heapSet t self.exportsRef k v) ht
    | throwErr c =>
      unfold runFactoryWith
      exact ⟨ht, rfl⟩

/-- `instantiateBody` for an uncached id `jd` preserves, for any other cached
id, its record's presence and its factory-invocation count — provided the
nested instantiation function does the same. -/
theorem instantiateBody_preserves (env : Env) (id : ModuleId)
    (inst : ModuleId → SourceInfo → RState → RState × Except Err Module)
    (hinst : ∀ jd source t, assocFind t.moduleCache jd = none →
      (assocFind t.moduleCache id).isSome = true →
      (assocFind (inst jd source t).1.moduleCache id).isSome = true ∧
      List.count id (inst jd source t).1.callLog = List.count id t.callLog)
    (jd : ModuleId) (source : SourceInfo) (t : RState)
    (hjd : assocFind t.moduleCache jd = none)
    (hid : (assocFind t.moduleCache id).isSome = true) :
    (assocFind (instantiateBody env inst jd source t).1.moduleCache id).isSome = true ∧
    List.count id (instantiateBody env inst jd source t).1.callLog =
      List.count id t.callLog := by
  have hne : id ≠ jd := by
    intro h
    rw [← h] at hjd
    rw [hjd] at hid
    exact Bool.noConfusion hid
  unfold instantiateBody
  cases hf : assocFind t.moduleFactories jd with
  | none => exact ⟨hid, rfl⟩
  | some fref =>
    simp only
    have hreq : ∀ target self u, (assocFind u.moduleCache id).isSome = true →
        (assocFind (getOrParentWith inst target self u).1.moduleCache id).isSome = true ∧
        List.count id (getOrParentWith inst target self u).1.callLog =
          List.count id u.callLog := by
      intro target self u hu
      unfold getOrParentWith
      cases htc : assocFind u.moduleCache target with
      | some mm => exact ⟨hu, rfl⟩
      | none => exact hinst target (SourceInfo.parent self.id) u htc hu
    have hS1 : (assocFind (insertFresh jd t).moduleCache id).isSome = true := by
      rw [insertFresh_cache_ne jd id t hne]
      exact hid
    have hp := runFactoryWith_preserves id (getOrParentWith inst) hreq
      (freshModule jd t) ((assocFind env.code fref).getD []) (insertFresh jd t) hS1
    unfold instantiateWithFactory
    constructor
    · rw [finishInstantiation_cache_ne jd id (freshModule jd t) _ _ hne]
      exact hp.1
    · rw [finishInstantiation_log, hp.2]
      exact insertFresh_count_ne jd id t hne

/-- For any fuel, instantiating an uncached id `jd` preserves, for any other
cached id, its record's presence and its factory-invocation count. -/
theorem instantiateModule_preserves (env : Env) (id : ModuleId) :
    ∀ (fuel : Nat) (jd : ModuleId) (source : SourceInfo) (t : RState),
      assocFind t.moduleCache jd = none →
      (assocFind t.moduleCache id).isSome = true →
      (assocFind (instantiateModule env fuel jd source t).1.moduleCache id).isSome = true ∧
      List.count id (instantiateModule env fuel jd source t).1.callLog =
        List.count id t.callLog := by
  intro fuel
  induction fuel with
  | zero =>
    intro jd source t _ hid
    exact ⟨hid, rfl⟩
  | succ fuel ih =>
    intro jd source t hjd hid
    exact instantiateBody_preserves env id (instantiateModule env fuel) ih jd source t hjd hid

/-- The parent-tagged require capability preserves, for any cached id, its
record's presence and its factory-invocation count. -/
theorem getOrParentWith_preserves (env : Env) (id : ModuleId) (fuel : Nat) :
    ∀ target self u, (assocFind u.moduleCache id).isSome = true →
      (assocFind (getOrParentWith (instantiateModule env fuel) target self u).1.moduleCache
        id).isSome = true ∧
      List.count id (getOrParentWith (instantiateModule env fuel) target self u).1.callLog =
        List.count id u.callLog := by
  intro target self u hu
  unfold getOrParentWith
  cases htc : assocFind u.moduleCache target with
  | some mm => exact ⟨hu, rfl⟩
  | none =>
    exact instantiateModule_preserves env id fuel target (SourceInfo.parent self.id) u htc hu

/-- The first instantiation of an id with a registered factory stores exactly
one record for it in the module cache and invokes its factory exactly once,
whatever the factory (and all transitively required factories) do. -/
theorem instantiate_creates_one_record (env : Env) (fuel : Nat) (id : ModuleId)
    (source : SourceInfo) (s : RState)
    (_hmiss : assocFind s.moduleCache id = none)
    (hfact : (assocFind s.moduleFactories id).isSome = true) :
    ∃ m', assocFind (instantiateModule env (Nat.succ fuel) id source s).1.moduleCache id =
        some m' ∧
      List.count id (instantiateModule env (Nat.succ fuel) id source s).1.callLog =
        List.count id s.callLog + 1 := by
  obtain ⟨fref, hf⟩ := Option.isSome_iff_exists.mp hfact
  show ∃ m', assocFind (instantiateBody env (instantiateModule env fuel)
      id source s).1.moduleCache id = some m' ∧
    List.count id (instantiateBody env (instantiateModule env fuel)
      id source s).1.callLog = List.count id s.callLog + 1
  unfold instantiateBody
  rw [hf]
  simp only
  unfold instantiateWithFactory
  have hS1 : (assocFind (insertFresh id s).moduleCache id).isSome = true := by
    rw [insertFresh_cache_self]
    rfl
  have hp := runFactoryWith_preserves id (getOrParentWith (instantiateModule env fuel))
    (getOrParentWith_preserves env id fuel) (freshModule id s)
    ((assocFind env.code fref).getD []) (insertFresh id s) hS1
  refine ⟨_, finishInstantiation_cache_id id (freshModule id s) _ _ hp.1, ?_⟩
  rw [finishInstantiation_log, hp.2, insertFresh_count_self]

/-- A cache hit on the parent path returns the cached record with the state
untouched. -/
theorem getOrParent_cache_hit (env : Env) (fuel : Nat) (id : ModuleId)
    (sourceModule : Module) (t : RState) (m : Module)
    (h : assocFind t.moduleCache id = some m) :
    getOrInstantiateModuleFromParent env fuel id sourceModule t = (t, Except.ok m) := by
  simp [getOrInstantiateModuleFromParent, getOrParentWith, h]

/-- A cache hit on the runtime path returns the cached record with the state
untouched when no error is recorded on it. -/
theorem getOrRuntime_cache_hit (env : Env) (fuel : Nat) (id : ModuleId)
    (chunkPath : ChunkPath) (t : RState) (m : Module)
    (h : assocFind t.moduleCache id = some m) (herr : m.error = none) :
    getOrInstantiateRuntimeModule env fuel id chunkPath t = (t, Except.ok m) := by
  simp [getOrInstantiateRuntimeModule, h, herr]

/-- **C1** — For an id with a registered factory and no cached record, the first
instantiation through `getOrInstantiateModuleFromParent` or
`getOrInstantiateRuntimeModule` stores exactly one record in the module cache
and invokes the id's factory exactly once (whatever the factories do), and every
later call for the same id — absent external eviction — returns that same
record without invoking the module factory again: the parent path returns it
as-is with the state unchanged, the runtime path likewise when the record is
healthy. -/
theorem module_record_created_once (env : Env)
    (fuel fuel2 fuel3 fuelR fuelR2 fuelR3 : Nat) (id : ModuleId)
    (sourceModule sourceModule2 sourceModuleR : Module)
    (chunkPath2 chunkPathR chunkPathR2 : ChunkPath) (s : RState)
    (hmiss : assocFind s.moduleCache id = none)
    (hfact : (assocFind s.moduleFactories id).isSome = true) :
    (∃ mp,
      assocFind (getOrInstantiateModuleFromParent env (Nat.succ fuel) id sourceModule s).1.moduleCache id = some mp ∧
      List.count id (getOrInstantiateModuleFromParent env (Nat.succ fuel) id sourceModule s).1.callLog = List.count id s.callLog + 1 ∧
      getOrInstantiateModuleFromParent env fuel2 id sourceModule2 (getOrInstantiateModuleFromParent env (Nat.succ fuel) id sourceModule s).1 =
        ((getOrInstantiateModuleFromParent env (Nat.succ fuel) id sourceModule s).1, Except.ok mp) ∧
      (mp.error = none →
        getOrInstantiateRuntimeModule env fuel3 id chunkPath2 (getOrInstantiateModuleFromParent env (Nat.succ fuel) id sourceModule s).1 =
          ((getOrInstantiateModuleFromParent env (Nat.succ fuel) id sourceModule s).1, Except.ok mp))) ∧
    (∃ mr,
      assocFind (getOrInstantiateRuntimeModule env (Nat.succ fuelR) id chunkPathR s).1.moduleCache id = some mr ∧
      List.count id (getOrInstantiateRuntimeModule env (Nat.succ fuelR) id chunkPathR s).1.callLog = List.count id s.callLog + 1 ∧
      getOrInstantiateModuleFromParent env fuelR2 id sourceModuleR (getOrInstantiateRuntimeModule env (Nat.succ fuelR) id chunkPathR s).1 =
        ((getOrInstantiateRuntimeModule env (Nat.succ fuelR) id chunkPathR s).1, Except.ok mr) ∧
      (mr.error = none →
        getOrInstantiateRuntimeModule env fuelR3 id chunkPathR2 (getOrInstantiateRuntimeModule env (Nat.succ fuelR) id chunkPathR s).1 =
          ((getOrInstantiateRuntimeModule env (Nat.succ fuelR) id chunkPathR s).1, Except.ok mr))) := by
  have hredP : getOrInstantiateModuleFromParent env (Nat.succ fuel) id sourceModule s =
      instantiateModule env (Nat.succ fuel) id (SourceInfo.parent sourceModule.id) s := by
    simp [getOrInstantiateModuleFromParent, getOrParentWith, hmiss]
  have hredR : getOrInstantiateRuntimeModule env (Nat.succ fuelR) id chunkPathR s =
      instantiateModule env (Nat.succ fuelR) id (SourceInfo.runtime chunkPathR) s := by
    simp [getOrInstantiateRuntimeModule, instantiateRuntimeModule, hmiss]
  constructor
  · obtain ⟨mp, hmp, hcount⟩ := instantiate_creates_one_record env fuel id
      (SourceInfo.parent sourceModule.id) s hmiss hfact
    rw [hredP]
    refine ⟨mp, hmp, hcount, getOrParent_cache_hit env fuel2 id sourceModule2 _ mp hmp, ?_⟩
    intro herr
    exact getOrRuntime_cache_hit env fuel3 id chunkPath2 _ mp hmp herr
  · obtain ⟨mr, hmr, hcount⟩ := instantiate_creates_one_record env fuelR id
      (SourceInfo.runtime chunkPathR) s hmiss hfact
    rw [hredR]
    refine ⟨mr, hmr, hcount, getOrParent_cache_hit env fuelR2 id sourceModuleR _ mr hmr, ?_⟩
    intro herr
    exact getOrRuntime_cache_hit env fuelR3 id chunkPathR2 _ mr hmr herr

/-- Environment of the C1 witness scenario: one registered factory with an
empty body. -/
def onceEnv : Env := { chunks := [], code := [(1, [])] }

/-- State of the C1 witness scenario: id `A` has factory 1 and no cached
record. -/
def onceState : RState := { initState with moduleFactories := [("A", 1)] }

/-- An arbitrary requiring module for the C1 witness scenario. -/
def someParent : Module := freshModule "p" initState

/-- Witness for C1 at a concrete input. -/
theorem module_record_created_once_witness :
    (∃ mp,
      assocFind (getOrInstantiateModuleFromParent onceEnv (Nat.succ 1) "A" someParent onceState).1.moduleCache "A" = some mp ∧
      List.count "A" (getOrInstantiateModuleFromParent onceEnv (Nat.succ 1) "A" someParent onceState).1.callLog = List.count "A" onceState.callLog + 1 ∧
      getOrInstantiateModuleFromParent onceEnv 1 "A" someParent (getOrInstantiateModuleFromParent onceEnv (Nat.succ 1) "A" someParent onceState).1 =
        ((getOrInstantiateModuleFromParent onceEnv (Nat.succ 1) "A" someParent onceState).1, Except.ok mp) ∧
      (mp.error = none →
        getOrInstantiateRuntimeModule onceEnv 1 "A" "c2.js" (getOrInstantiateModuleFromParent onceEnv (Nat.succ 1) "A" someParent onceState).1 =
          ((getOrInstantiateModuleFromParent onceEnv (Nat.succ 1) "A" someParent onceState).1, Except.ok mp))) ∧
    (∃ mr,
      assocFind (getOrInstantiateRuntimeModule onceEnv (Nat.succ 1) "A" "cr.js" onceState).1.moduleCache "A" = some mr ∧
      List.count "A" (getOrInstantiateRuntimeModule onceEnv (Nat.succ 1) "A" "cr.js" onceState).1.callLog = List.count "A" onceState.callLog + 1 ∧
      getOrInstantiateModuleFromParent onceEnv 1 "A" someParent (getOrInstantiateRuntimeModule onceEnv (Nat.succ 1) "A" "cr.js" onceState).1 =
        ((getOrInstantiateRuntimeModule onceEnv (Nat.succ 1) "A" "cr.js" onceState).1, Except.ok mr) ∧
      (mr.error = none →
        getOrInstantiateRuntimeModule onceEnv 1 "A" "cr2.js" (getOrInstantiateRuntimeModule onceEnv (Nat.succ 1) "A" "cr.js" onceState).1 =
          ((getOrInstantiateRuntimeModule onceEnv (Nat.succ 1) "A" "cr.js" onceState).1, Except.ok mr))) :=
  module_record_created_once onceEnv 1 1 1 1 1 1 "A" someParent someParent someParent
    "c2.js" "cr.js" "cr2.js" onceState rfl rfl

/-! ### C10: characterisation of the executable-chunk test -/

/-- The query part of the regex language: empty, or `?` followed by
characters among which `#` does not occur (`[^#]*` — line terminators ARE
matched by a negated class). -/
def QOk (q : List Char) : Prop :=
  q = [] ∨ ∃ x, q = '?' :: x ∧ '#' ∉ x

/-- The fragment part of the regex language: empty, or `#` followed by `.*`
— and `.` without the `s` flag matches no line terminator. -/
def FragOk (f : List Char) : Prop :=
  f = [] ∨ ∃ y, f = '#' :: y ∧ ∀ c ∈ y, isLineTerminator c = false

/-- The language of the regex `\.js(?:\?[^#]*)?(?:#.*)?$` under JavaScript
semantics, written out from the claim's description: the path ends (`$`
without the `m` flag: true end of input) with `.js`, optionally followed by
a query and/or a fragment as constrained by `QOk` and `FragOk`. -/
def JsUrlSpec (p : String) : Prop :=
  ∃ stem q f : List Char,
    p.data = stem ++ ('.' :: 'j' :: 's' :: (q ++ f)) ∧ QOk q ∧ FragOk f

/-- `noLineTerm` decides absence of line terminators. -/
theorem noLineTerm_iff (l : List Char) :
    noLineTerm l = true ↔ ∀ c ∈ l, isLineTerminator c = false := by
  induction l with
  | nil => simp [noLineTerm]
  | cons c cs ih =>
    simp only [noLineTerm, Bool.and_eq_true, Bool.not_eq_true', ih,
      List.mem_cons]
    constructor
    · rintro ⟨hc, hrest⟩ d hd
      rcases hd with rfl | hd
      · exact hc
      · exact hrest d hd
    · intro h
      exact ⟨h c (Or.inl rfl), fun d hd => h d (Or.inr hd)⟩

/-- The two-character head test characterised. -/
theorem startsJsTail_iff (cs : List Char) :
    startsJsTail cs = true ↔ ∃ r, cs = 'j' :: 's' :: r ∧ restOk r = true := by
  cases cs with
  | nil =>
    simp [startsJsTail]
  | cons a tail =>
    cases tail with
    | nil => simp [startsJsTail]
    | cons b r =>
      simp only [startsJsTail, Bool.and_eq_true, beq_iff_eq]
      constructor
      · rintro ⟨⟨ha, hb⟩, hok⟩
        exact ⟨r, by rw [ha, hb], hok⟩
      · rintro ⟨r1, heq, hok⟩
        injection heq with h1 h2
        injection h2 with h2 h3
        subst h1
        subst h2
        subst h3
        exact ⟨⟨rfl, rfl⟩, hok⟩

/-- The post-query scan characterised: `queryRest u` holds exactly when `u`
splits into a `#`-free query body followed by an admissible fragment. -/
theorem queryRest_iff (u : List Char) :
    queryRest u = true ↔ ∃ x f, u = x ++ f ∧ '#' ∉ x ∧ FragOk f := by
  induction u with
  | nil =>
    simp only [queryRest, true_iff]
    exact ⟨[], [], rfl, by simp, Or.inl rfl⟩
  | cons c u1 ih =>
    by_cases hc : c = '#'
    · subst hc
      simp only [queryRest, if_pos rfl]
      constructor
      · intro h
        exact ⟨[], '#' :: u1, rfl, by simp,
          Or.inr ⟨u1, rfl, (noLineTerm_iff u1).mp h⟩⟩
      · rintro ⟨x, f, heq, hx, hf⟩
        cases x with
        | nil =>
          simp only [List.nil_append] at heq
          rcases hf with rfl | ⟨y, hy, hnl⟩
          · exact List.noConfusion heq
          · rw [hy] at heq
            injection heq with _ h2
            rw [h2]
            exact (noLineTerm_iff y).mpr hnl
        | cons d x1 =>
          rw [List.cons_append] at heq
          injection heq with h1 _
          exact absurd (List.mem_cons.mpr (Or.inl h1)) hx
    · simp only [queryRest, if_neg hc, ih]
      constructor
      · rintro ⟨x, f, heq, hx, hf⟩
        refine ⟨c :: x, f, by rw [List.cons_append, heq], ?_, hf⟩
        intro hm
        rcases List.mem_cons.mp hm with h | h
        · exact hc h.symm
        · exact hx h
      · rintro ⟨x, f, heq, hx, hf⟩
        cases x with
        | nil =>
          simp only [List.nil_append] at heq
          rcases hf with rfl | ⟨y, hy, _⟩
          · exact List.noConfusion heq
          · rw [hy] at heq
            injection heq with h1 _
            exact absurd h1 hc
        | cons d x1 =>
          rw [List.cons_append] at heq
          injection heq with h1 h2
          subst h1
          refine ⟨x1, f, h2, ?_, hf⟩
          intro hm
          exact hx (List.mem_cons_of_mem _ hm)

/-- The remainder test matches exactly the query-and-fragment suffix
language of the regex. -/
theorem restOk_iff_qf (r : List Char) :
    restOk r = true ↔ ∃ q f, r = q ++ f ∧ QOk q ∧ FragOk f := by
  cases r with
  | nil =>
    simp only [restOk, true_iff]
    exact ⟨[], [], rfl, Or.inl rfl, Or.inl rfl⟩
  | cons c rest =>
    by_cases h1 : c = '#'
    · subst h1
      simp only [restOk, if_pos rfl]
      constructor
      · intro h
        exact ⟨[], '#' :: rest, rfl, Or.inl rfl,
          Or.inr ⟨rest, rfl, (noLineTerm_iff rest).mp h⟩⟩
      · rintro ⟨q, f, heq, hq, hf⟩
        rcases hq with rfl | ⟨x, rfl, hx⟩
        · simp only [List.nil_append] at heq
          rcases hf with rfl | ⟨y, hy, hnl⟩
          · exact List.noConfusion heq
          · rw [hy] at heq
            injection heq with _ h2
            rw [h2]
            exact (noLineTerm_iff y).mpr hnl
        · rw [List.cons_append] at heq
          injection heq with hh _
          exact absurd hh (by decide)
    · by_cases h2 : c = '?'
      · subst h2
        simp only [restOk, if_neg h1, if_pos rfl, if_true]
        rw [queryRest_iff]
        constructor
        · rintro ⟨x, f, heq, hx, hf⟩
          exact ⟨'?' :: x, f, by rw [List.cons_append, heq],
            Or.inr ⟨x, rfl, hx⟩, hf⟩
        · rintro ⟨q, f, heq, hq, hf⟩
          rcases hq with rfl | ⟨x, rfl, hx⟩
          · simp only [List.nil_append] at heq
            rcases hf with rfl | ⟨y, hy, _⟩
            · exact List.noConfusion heq
            · rw [hy] at heq
              injection heq with hh _
              exact absurd hh (by decide)
          · rw [List.cons_append] at heq
            injection heq with _ h3
            exact ⟨x, f, h3, hx, hf⟩
      · simp only [restOk, if_neg h1, if_neg h2, Bool.false_eq_true, false_iff]
        rintro ⟨q, f, heq, hq, hf⟩
        rcases hq with rfl | ⟨x, rfl, _⟩
        · simp only [List.nil_append] at heq
          rcases hf with rfl | ⟨y, hy, _⟩
          · exact List.noConfusion heq
          · rw [hy] at heq
            injection heq with hh _
            exact h1 hh
        · rw [List.cons_append] at heq
          injection heq with hh _
          exact h2 hh

/-- The scanner finds exactly the suffix-anchored `.js` matches. -/
theorem isJsList_iff (l : List Char) :
    isJsList l = true ↔
      ∃ stem r, l = stem ++ '.' :: 'j' :: 's' :: r ∧ restOk r = true := by
  induction l with
  | nil =>
    simp only [isJsList, Bool.false_eq_true, false_iff]
    rintro ⟨stem, r, hl, _⟩
    cases stem with
    | nil => exact List.noConfusion hl
    | cons d ds => exact List.noConfusion hl
  | cons c cs ih =>
    simp only [isJsList, Bool.or_eq_true, Bool.and_eq_true, beq_iff_eq]
    constructor
    · rintro (⟨rfl, hs⟩ | h)
      · obtain ⟨r, hr, hok⟩ := (startsJsTail_iff cs).mp hs
        exact ⟨[], r, by rw [hr]; rfl, hok⟩
      · obtain ⟨stem, r, hl, hok⟩ := ih.mp h
        exact ⟨c :: stem, r, by rw [hl]; rfl, hok⟩
    · rintro ⟨stem, r, hl, hok⟩
      cases stem with
      | nil =>
        simp only [List.nil_append] at hl
        injection hl with h1 h2
        subst h1
        exact Or.inl ⟨rfl, (startsJsTail_iff cs).mpr ⟨r, h2, hok⟩⟩
      | cons d ds =>
        rw [List.cons_append] at hl
        injection hl with h1 h2
        exact Or.inr (ih.mpr ⟨ds, r, h2, hok⟩)

/-- **C10** — A chunk path is treated as executable exactly when it belongs to
the language of `\.js(?:\?[^#]*)?(?:#.*)?$` (ends with `.js`, optionally
followed by a query and/or fragment); for every other path — `.mjs`, `.cjs`,
`.json`, `.css`, … — both `loadChunkPath` and `loadChunkAsync` take the silent
no-op branch and never attempt to load the chunk. -/
theorem isJs_matches_spec (p : String) (env : Env) (source : Option SourceInfo)
    (source2 : SourceInfo) (s : RState) :
    (isJs p = true ↔ JsUrlSpec p) ∧
    (¬ JsUrlSpec p →
      loadChunkPath env p source s = (s, Except.ok ()) ∧
      loadChunkAsync env source2 p s = (s, Except.ok ())) := by
  have hiff : isJs p = true ↔ JsUrlSpec p := by
    unfold isJs JsUrlSpec
    rw [isJsList_iff]
    constructor
    · rintro ⟨stem, r, hl, hok⟩
      obtain ⟨q, f, hr, hq, hf⟩ := (restOk_iff_qf r).mp hok
      exact ⟨stem, q, f, by rw [hl, hr], hq, hf⟩
    · rintro ⟨stem, q, f, hl, hq, hf⟩
      exact ⟨stem, q ++ f, hl, (restOk_iff_qf (q ++ f)).mpr ⟨q, f, rfl, hq, hf⟩⟩
  refine ⟨hiff, fun hn => ?_⟩
  have hfalse : isJs p = false := by
    cases hb : isJs p
    · rfl
    · exact absurd (hiff.mp hb) hn
  exact nonJs_noop_aux env source source2 p s hfalse

/-- Witness for C10 at a concrete input (a `.mjs` path). -/
theorem isJs_matches_spec_witness :
    (isJs "a.mjs" = true ↔ JsUrlSpec "a.mjs") ∧
    (¬ JsUrlSpec "a.mjs" →
      loadChunkPath { chunks := [], code := [] } "a.mjs" none initState =
        (initState, Except.ok ()) ∧
      loadChunkAsync { chunks := [], code := [] } (SourceInfo.runtime "r.js") "a.mjs"
        initState = (initState, Except.ok ())) :=
  isJs_matches_spec "a.mjs" { chunks := [], code := [] } none
    (SourceInfo.runtime "r.js") initState

end Turbopack
